import Mathlib

/-!
Verification of the download-renaming watcher (`src/main.py`).

The development shallowly embeds the pure logic of the watcher:

* `sanitize_filename` — the Naming Policy (`src/main.py` lines 39–44):
  Python strings become Lean `String`s (lists of characters); the regex
  substitution `re.sub` of the pattern class `[<>:"/\\|?*]+` by an
  underscore — which replaces each maximal run of reserved characters by a
  single underscore, because of the trailing `+` — is embedded as the
  structurally recursive `subRuns`, and the slice `[:200]` as
  `List.take 200`.
* `wait_for_download_complete` — the Stability Resolver (lines 47–68):
  the filesystem is a time-indexed existence predicate
  `exists_at : Nat → String → Bool` (poll `k` happens `k` seconds after
  the start, matching the one-second sleep per loop iteration); the
  `while` loop bounded by `timeout` becomes the fuel-based `waitLoop`,
  whose fuel is the number of remaining loop iterations.
  `pathlib.Path.suffix` is embedded as `pathSuffix`, following CPython's
  definition (the last-dot extension of the final path component, empty
  when the last dot is the first or the last character of the name).
* `process_event` — the per-event handler (lines 84–101): the Safari URL
  query and the outcome of `shutil.move` are inputs; an uncaught Python
  exception is an `Except.error`, so the `try/except` around the move is
  the `match` on `MoveOutcome` that returns `Except.ok` in both branches.
-/

/-- Reserved characters of the regex character class in
`re.sub` at `src/main.py` line 43: `<`, `>`, `:`, `"`, `/`, `\`, `|`,
`?`, `*`. -/
def reservedChars : List Char := ['<', '>', ':', '"', '/', '\\', '|', '?', '*']

/-- Membership test for the reserved character class. -/
def isReserved (c : Char) : Bool := reservedChars.contains c

/-- Embedding of the regex substitution at `src/main.py` line 43: each
maximal run of reserved characters is replaced by one underscore.  The
Boolean argument records whether the previous character was part of a
reserved run (in which case a further reserved character extends the run
and emits nothing). -/
def subRuns : Bool → List Char → List Char
  | _, [] => []
  | prev, c :: cs =>
    if isReserved c then
      if prev then subRuns true cs else '_' :: subRuns true cs
    else c :: subRuns false cs

/-- Embedding of `sanitize_filename` (`src/main.py` lines 39–44): empty
input yields the fallback token; otherwise the regex substitution is
applied and the result truncated to 200 characters by the slice
`filename[:200]`. -/
def sanitize_filename (url : String) : String :=
  if url = "" then "unknown_source"
  else String.mk ((subRuns false url.data).take 200)

/-- Reference definition following the amended specification wording:
replace each maximal run of consecutive reserved characters by a single
underscore.  `sanitize_filename`, translated from the source, is proved to
agree with this reading (`sanitize_collapses_runs`). -/
def collapseRunsSpec : List Char → List Char
  | [] => []
  | c :: cs =>
    if isReserved c then '_' :: collapseRunsSpec (cs.dropWhile isReserved)
    else c :: collapseRunsSpec cs
termination_by l => l.length
decreasing_by
  · simp only [List.length_cons]
    exact Nat.lt_succ_of_le (List.dropWhile_sublist _).length_le
  · simp

/-- Last component of a path string (the part after the last slash): the
embedding of `pathlib.PurePath.name` for the already-normalised path
strings the watcher receives. -/
def lastComponent (p : String) : List Char :=
  ((p.data.reverse).takeWhile (fun c => c ≠ '/')).reverse

/-- Embedding of `pathlib.PurePath.name` as a string. -/
def pathName (p : String) : String := String.mk (lastComponent p)

/-- Embedding of `pathlib.PurePath.suffix` (used at `src/main.py` line 52
as `path.suffix`): CPython returns `name[i:]` where `i` is the index of
the last dot of the final component, provided `0 < i < len(name) - 1`,
and the empty string otherwise. -/
def pathSuffix (p : String) : String :=
  let n := lastComponent p
  if '.' ∈ n then
    let after := ((n.reverse).takeWhile (fun c => c ≠ '.')).reverse
    let i := n.length - 1 - after.length
    if 0 < i ∧ after ≠ [] then String.mk ('.' :: after) else ""
  else ""

/-- Result of one run of the Stability Resolver: the returned path, the
number of one-second polls slept (the elapsed seconds), and whether the
timeout warning was printed. -/
structure WaitResult where
  result : String
  polls : Nat
  warned : Bool
deriving DecidableEq

/-- Embedding of the polling loop of `wait_for_download_complete`
(`src/main.py` lines 61–68).  `exists_at k s` tells whether path `s`
exists at the k-th poll (k seconds after the start); the fuel counts the
remaining loop iterations, so the guard `time.time() - start_time <
timeout` admits exactly `timeout` iterations of check-then-sleep. -/
def waitLoop (exists_at : Nat → String → Bool) (path final : String) :
    Nat → Nat → WaitResult
  | k, 0 => ⟨path, k, true⟩
  | k, fuel + 1 =>
    if exists_at k path = false ∧ exists_at k final = true then ⟨final, k, false⟩
    else waitLoop exists_at path final (k + 1) fuel

/-- Embedding of `Path(str(path)[:-9])` (`src/main.py` line 59): strip the
nine characters of the trailing marker. -/
def stripMarker (p : String) : String :=
  String.mk (p.data.take (p.data.length - 9))

/-- Embedding of `wait_for_download_complete` (`src/main.py` lines
47–68): a path without the `.download` suffix is returned at once with no
polls; otherwise the loop polls once per second until the marker is gone
and the final file exists, or the timeout elapses. -/
def wait_for_download_complete (exists_at : Nat → String → Bool)
    (p : String) (timeout : Nat) : WaitResult :=
  if pathSuffix p ≠ ".download" then ⟨p, 0, false⟩
  else waitLoop exists_at p (stripMarker p) 0 timeout

/-- Outcome of the `shutil.move` call at `src/main.py` line 98, as seen by
the `try/except`: either it succeeds or it raises an exception with a
message. -/
inductive MoveOutcome where
  | success : MoveOutcome
  | failure : String → MoveOutcome
deriving DecidableEq

/-- Observable result of one `process_event` run: the printed log lines
and the destination path if the move succeeded (`none` when the event was
dropped). -/
structure EventResult where
  logs : List String
  movedTo : Option String
deriving DecidableEq

/-- Embedding of `DOWNLOADS = Path.home() / "Downloads"`
(`src/main.py` line 18); the home directory is an input. -/
def DOWNLOADS (home : String) : String := home ++ "/Downloads"

/-- Embedding of `DEST_DIR = DOWNLOADS / "safari_renamed"`
(`src/main.py` line 19). -/
def DEST_DIR (home : String) : String := DOWNLOADS home ++ "/safari_renamed"

/-- Embedding of `WAIT_TIME = 2` (`src/main.py` line 20), the fixed delay
slept before querying the Safari URL; it does not affect the computed
result. -/
def WAIT_TIME : Nat := 2

/-- Embedding of `DownloadHandler.process_event` (`src/main.py` lines
84–101).  Inputs stand for the effects the handler observes: `exists_at`
is the filesystem at and after the event (`exists_at 0 p` is the
`path.exists()` check), `safari_url` the Context Fetcher's answer, and
`move` the outcome of `shutil.move`.  The return type is
`Except String EventResult`: an `Except.error` would be an uncaught
exception escaping the handler; the `try/except` at lines 97–101 makes
both move outcomes return `Except.ok`. -/
def process_event (home : String) (exists_at : Nat → String → Bool)
    (safari_url : String) (move : MoveOutcome) (p : String) :
    Except String EventResult :=
  if exists_at 0 p = false then Except.ok ⟨[], none⟩
  else
    let w := wait_for_download_complete exists_at p 60
    let path := w.result
    let safe_name := sanitize_filename safari_url
    let new_path := DEST_DIR home ++ "/" ++ safe_name ++ pathSuffix path
    match move with
    | MoveOutcome.success =>
      Except.ok ⟨["New or updated file detected: " ++ pathName p,
                  "Renamed and moved: " ++ pathName new_path],
                 some new_path⟩
    | MoveOutcome.failure e =>
      Except.ok ⟨["New or updated file detected: " ++ pathName p,
                  "Could not rename " ++ pathName path ++ ": " ++ e],
                 none⟩

/-- Every character emitted by the substitution is safe: members of its
output are never reserved (the substitute is an underscore, and kept
characters were not reserved). -/
theorem subRuns_mem_not_reserved :
    ∀ (l : List Char) (b : Bool) (c : Char), c ∈ subRuns b l → isReserved c = false := by
  intro l
  induction l with
  | nil => intro b c h; simp [subRuns] at h
  | cons d ds ih =>
    intro b c h
    rw [subRuns] at h
    split at h
    · split at h
      · exact ih _ _ h
      · rcases List.mem_cons.mp h with rfl | h
        · decide
        · exact ih _ _ h
    · rcases List.mem_cons.mp h with rfl | h
      · rename_i hd
        simpa using hd
      · exact ih _ _ h

/-- The substitution never maps a non-empty string to the empty string:
its head either survives or becomes an underscore. -/
theorem subRuns_ne_nil (l : List Char) (h : l ≠ []) : subRuns false l ≠ [] := by
  cases l with
  | nil => exact absurd rfl h
  | cons c cs => by_cases hc : isReserved c = true <;> simp [subRuns, hc]

/-- The substitution leaves a string without reserved characters
unchanged. -/
theorem subRuns_id (l : List Char) (h : l.any isReserved = false) :
    subRuns false l = l := by
  induction l with
  | nil => rfl
  | cons c cs ih =>
    simp only [List.any_cons, Bool.or_eq_false_iff] at h
    simp [subRuns, h.1, ih h.2]

/-- Inside a reserved run, the substitution just skips the rest of the
run. -/
theorem subRuns_true_dropWhile :
    ∀ l : List Char, subRuns true l = subRuns false (l.dropWhile isReserved) := by
  intro l
  induction l with
  | nil => rfl
  | cons c cs ih =>
    by_cases hc : isReserved c = true
    · rw [List.dropWhile_cons_of_pos hc, ← ih]
      simp [subRuns, hc]
    · rw [List.dropWhile_cons_of_neg hc]
      simp [subRuns, hc]

/-- The substitution translated from the source agrees with the
specification-worded reference `collapseRunsSpec`. -/
theorem subRuns_eq_collapseRunsSpec :
    ∀ l : List Char, subRuns false l = collapseRunsSpec l := by
  have H : ∀ (n : Nat) (l : List Char), l.length ≤ n →
      subRuns false l = collapseRunsSpec l := by
    intro n
    induction n with
    | zero =>
      intro l hl
      have : l = [] := List.eq_nil_of_length_eq_zero (Nat.le_zero.mp hl)
      subst this
      simp [subRuns, collapseRunsSpec]
    | succ n ih =>
      intro l hl
      cases l with
      | nil => simp [subRuns, collapseRunsSpec]
      | cons c cs =>
        rw [List.length_cons, Nat.succ_le_succ_iff] at hl
        by_cases hc : isReserved c = true
        · have h1 : subRuns false (c :: cs) = '_' :: subRuns true cs := by
            simp [subRuns, hc]
          rw [h1, subRuns_true_dropWhile,
            ih _ (Nat.le_trans (List.dropWhile_sublist _).length_le hl)]
          simp [collapseRunsSpec, hc]
        · have h1 : subRuns false (c :: cs) = c :: subRuns false cs := by
            simp [subRuns, hc]
          rw [h1, ih _ hl]
          simp [collapseRunsSpec, hc]
  exact fun l => H l.length l le_rfl

/-- Unfolding of `sanitize_filename` on non-empty input. -/
theorem sanitize_of_ne_empty (s : String) (h : s ≠ "") :
    sanitize_filename s = String.mk ((subRuns false s.data).take 200) := by
  simp [sanitize_filename, h]

/-- A non-empty string has a non-empty character list. -/
theorem data_ne_nil (s : String) (h : s ≠ "") : s.data ≠ [] :=
  fun hd => h (String.ext (by rw [hd]))

/-- The Naming Policy never returns the empty string. -/
theorem sanitize_ne_empty (s : String) : sanitize_filename s ≠ "" := by
  by_cases h : s = ""
  · subst h; decide
  · rw [sanitize_of_ne_empty s h]
    intro he
    have hd : (subRuns false s.data).take 200 = [] := congrArg String.data he
    have h1 : subRuns false s.data ≠ [] := subRuns_ne_nil _ (data_ne_nil s h)
    have h2 : min 200 (subRuns false s.data).length = 0 := by
      have := congrArg List.length hd
      simpa [List.length_take] using this
    have h3 : (subRuns false s.data).length = 0 := by omega
    exact h1 (List.eq_nil_of_length_eq_zero h3)

/-- The Naming Policy's output never exceeds 200 characters. -/
theorem sanitize_len_le (s : String) : (sanitize_filename s).length ≤ 200 := by
  by_cases h : s = ""
  · subst h; decide
  · rw [sanitize_of_ne_empty s h]
    show ((subRuns false s.data).take 200).length ≤ 200
    rw [List.length_take]
    omega

/-- The Naming Policy's output contains no reserved character. -/
theorem sanitize_output_safe (s : String) :
    (sanitize_filename s).data.any isReserved = false := by
  by_cases h : s = ""
  · subst h; decide
  · rw [sanitize_of_ne_empty s h, List.any_eq_false]
    intro c hc
    have := subRuns_mem_not_reserved s.data false c (List.take_subset _ _ hc)
    simp [this]

/-- An already-safe name — non-empty, without reserved characters, within
the length bound — is a fixed point of the Naming Policy. -/
theorem sanitize_safe_id (s : String) (h : s ≠ "")
    (hsafe : s.data.any isReserved = false) (hlen : s.length ≤ 200) :
    sanitize_filename s = s := by
  rw [sanitize_of_ne_empty s h, subRuns_id _ hsafe, List.take_of_length_le hlen]


/-- When no poll within the remaining fuel observes the success condition,
the loop runs out of fuel and returns the marker path with the warning,
having slept once per iteration. -/
theorem waitLoop_timeout (exists_at : Nat → String → Bool) (path final : String) :
    ∀ (fuel k : Nat),
      (∀ j, j < fuel →
        ¬(exists_at (k + j) path = false ∧ exists_at (k + j) final = true)) →
      waitLoop exists_at path final k fuel = ⟨path, k + fuel, true⟩ := by
  intro fuel
  induction fuel with
  | zero => intro k h; simp [waitLoop]
  | succ fuel ih =>
    intro k h
    have h0 : ¬(exists_at k path = false ∧ exists_at k final = true) := by
      have := h 0 (Nat.succ_pos _)
      simpa using this
    have hrest : ∀ j, j < fuel →
        ¬(exists_at (k + 1 + j) path = false ∧ exists_at (k + 1 + j) final = true) := by
      intro j hj
      have h2 := h (j + 1) (Nat.succ_lt_succ hj)
      have e : k + (j + 1) = k + 1 + j := by omega
      rw [e] at h2
      exact h2
    simp only [waitLoop, if_neg h0]
    rw [ih (k + 1) hrest]
    have e : k + 1 + fuel = k + (fuel + 1) := by omega
    rw [e]

/-- When some poll within the remaining fuel observes the marker gone and
the final file present, the loop returns the final path. -/
theorem waitLoop_hits (exists_at : Nat → String → Bool) (path final : String) :
    ∀ (fuel k j : Nat), k ≤ j → j < k + fuel →
      exists_at j path = false → exists_at j final = true →
      (waitLoop exists_at path final k fuel).result = final := by
  intro fuel
  induction fuel with
  | zero =>
    intro k j h1 h2 h3 h4
    exact absurd h2 (by omega)
  | succ fuel ih =>
    intro k j h1 h2 h3 h4
    by_cases hc : exists_at k path = false ∧ exists_at k final = true
    · simp only [waitLoop, if_pos hc]
    · simp only [waitLoop, if_neg hc]
      have hkj : k ≠ j := by
        rintro rfl
        exact hc ⟨h3, h4⟩
      exact ih (k + 1) j (by omega) (by omega) h3 h4

/-- C1 (counterexample): the Naming Policy does not give each occurrence
of a reserved character its own substitute: sanitizing
`https://example.com/invoice?id=42` does not yield
`https___example.com_invoice_id_42` (the run `://` collapses to one
underscore, and `=` is not replaced at all). -/
theorem sanitize_example_counterexample :
    sanitize_filename "https://example.com/invoice?id=42"
      ≠ "https___example.com_invoice_id_42" := by decide

/-- C1 (amended): for every non-empty input, the Naming Policy replaces
each maximal run of consecutive reserved characters with a single
underscore (then truncates to 200 characters), as captured by the
specification-worded `collapseRunsSpec`; in particular, sanitizing
`https://example.com/invoice?id=42` yields
`https_example.com_invoice_id=42`. -/
theorem sanitize_collapses_runs :
    (∀ s : String, s ≠ "" →
      sanitize_filename s = String.mk ((collapseRunsSpec s.data).take 200)) ∧
    sanitize_filename "https://example.com/invoice?id=42"
      = "https_example.com_invoice_id=42" :=
  ⟨fun s h => by rw [sanitize_of_ne_empty s h, subRuns_eq_collapseRunsSpec],
   by decide⟩

/-- C1 (witness): the amended statement evaluated at a concrete non-empty
input. -/
theorem sanitize_collapses_runs_witness :
    sanitize_filename "a//b" = String.mk ((collapseRunsSpec ("a//b").data).take 200) :=
  sanitize_collapses_runs.1 "a//b" (by decide)

/-- C2: for every input containing a reserved character, the Naming
Policy's output contains none of the reserved characters. -/
theorem sanitize_removes_reserved :
    ∀ s : String, s.data.any isReserved = true →
      (sanitize_filename s).data.any isReserved = false :=
  fun s _ => sanitize_output_safe s

/-- C2 (witness): evaluated at `a/b`, which contains the reserved `/`. -/
theorem sanitize_removes_reserved_witness :
    ("a/b" : String).data.any isReserved = true ∧
    (sanitize_filename "a/b").data.any isReserved = false :=
  ⟨by decide, sanitize_removes_reserved "a/b" (by decide)⟩

set_option maxRecDepth 20000 in
/-- C3 (counterexample): an input longer than 200 characters whose output
length is not 200: two hundred and one slashes collapse to a single
underscore before truncation, so the output has length 1. -/
theorem sanitize_truncation_counterexample :
    200 < (String.mk (List.replicate 201 '/')).length ∧
    (sanitize_filename (String.mk (List.replicate 201 '/'))).length ≠ 200 := by
  constructor
  · decide
  · decide

/-- C3 (amended): the Naming Policy's output never exceeds 200
characters, and whenever the substituted string reaches 200 characters
the output has length exactly 200 (truncation, not rejection). -/
theorem sanitize_length_truncated :
    ∀ s : String,
      (sanitize_filename s).length ≤ 200 ∧
      (s ≠ "" → 200 ≤ (subRuns false s.data).length →
        (sanitize_filename s).length = 200) :=
  fun s =>
    ⟨sanitize_len_le s,
     fun h hlen => by
      rw [sanitize_of_ne_empty s h]
      show ((subRuns false s.data).take 200).length = 200
      rw [List.length_take]
      omega⟩

set_option maxRecDepth 20000 in
/-- C3 (witness): a 250-character input without reserved characters is
truncated to exactly 200 characters. -/
theorem sanitize_length_truncated_witness :
    (sanitize_filename (String.mk (List.replicate 250 'a'))).length ≤ 200 ∧
    (sanitize_filename (String.mk (List.replicate 250 'a'))).length = 200 :=
  ⟨(sanitize_length_truncated _).1,
   (sanitize_length_truncated _).2 (by decide) (by decide)⟩

/-- C4: the Naming Policy maps the empty string to the fixed fallback
token `unknown_source`. -/
theorem sanitize_empty_fallback : sanitize_filename "" = "unknown_source" := rfl

/-- C5: the Naming Policy is idempotent — applying it to its own output
changes nothing — and an already-safe string (non-empty, free of reserved
characters, within the 200-character bound) is returned unchanged. -/
theorem sanitize_idempotent :
    ∀ s : String,
      sanitize_filename (sanitize_filename s) = sanitize_filename s ∧
      (s ≠ "" → s.data.any isReserved = false → s.length ≤ 200 →
        sanitize_filename s = s) :=
  fun s =>
    ⟨sanitize_safe_id _ (sanitize_ne_empty s) (sanitize_output_safe s)
      (sanitize_len_le s),
     fun h1 h2 h3 => sanitize_safe_id s h1 h2 h3⟩

/-- C5 (witness): idempotence and fixed-point behaviour evaluated at the
already-safe string `abc`. -/
theorem sanitize_idempotent_witness :
    sanitize_filename (sanitize_filename "abc") = sanitize_filename "abc" ∧
    sanitize_filename "abc" = "abc" :=
  ⟨(sanitize_idempotent "abc").1,
   (sanitize_idempotent "abc").2 (by decide) (by decide) (by decide)⟩

/-- C6: a path that does not carry the `.download` marker suffix is
returned unchanged by the Stability Resolver, with zero polls slept and
no warning. -/
theorem resolver_stable_immediate :
    ∀ (exists_at : Nat → String → Bool) (p : String) (t : Nat),
      pathSuffix p ≠ ".download" →
      wait_for_download_complete exists_at p t = ⟨p, 0, false⟩ :=
  fun exists_at p t h => by rw [wait_for_download_complete, if_pos h]

/-- C6 (witness): `photo.jpg` is returned immediately. -/
theorem resolver_stable_immediate_witness :
    wait_for_download_complete (fun _ _ => false) "photo.jpg" 60
      = ⟨"photo.jpg", 0, false⟩ :=
  resolver_stable_immediate _ _ _ (by decide)

/-- C7 (counterexample): the mere appearance of the final file within the
timeout is not enough for the resolver to return it: if the marker file
never disappears, the loop times out and returns the marker path even
though the final file `report.pdf` exists from the very first poll. -/
theorem resolver_final_exists_counterexample :
    stripMarker "report.pdf.download" = "report.pdf" ∧
    (fun _ _ => true : Nat → String → Bool) 0 "report.pdf" = true ∧
    (wait_for_download_complete (fun _ _ => true) "report.pdf.download" 60).result
      ≠ "report.pdf" :=
  ⟨by decide, rfl, by decide⟩

/-- C7 (amended): for a path carrying the `.download` marker suffix, if
some poll within the timeout observes the marker file gone and the final
file (marker suffix stripped) present, the Stability Resolver returns the
final path. -/
theorem resolver_returns_final :
    ∀ (exists_at : Nat → String → Bool) (p : String) (timeout k : Nat),
      pathSuffix p = ".download" → k < timeout →
      exists_at k p = false → exists_at k (stripMarker p) = true →
      (wait_for_download_complete exists_at p timeout).result = stripMarker p := by
  intro exists_at p timeout k hs hk hp hf
  rw [wait_for_download_complete, if_neg (by simp [hs])]
  exact waitLoop_hits exists_at p (stripMarker p) timeout 0 k (Nat.zero_le k)
    (by omega) hp hf

/-- C7 (witness): a download whose marker is replaced by the final file
at the third poll resolves to `report.pdf`. -/
theorem resolver_returns_final_witness :
    (wait_for_download_complete
        (fun k s => decide (2 ≤ k) && (s == "report.pdf"))
        "report.pdf.download" 60).result
      = stripMarker "report.pdf.download" :=
  resolver_returns_final _ _ 60 2 (by decide) (by decide) (by decide) (by decide)

/-- C8: for a path carrying the `.download` marker suffix, if no poll
within the timeout observes the success condition — in particular when
the final file never appears, even if the marker itself disappears — the
Stability Resolver terminates after exactly `timeout` one-second polls,
returns the original marker path, and prints the timeout warning. -/
theorem resolver_times_out :
    ∀ (exists_at : Nat → String → Bool) (p : String) (timeout : Nat),
      pathSuffix p = ".download" →
      (∀ k, k < timeout →
        ¬(exists_at k p = false ∧ exists_at k (stripMarker p) = true)) →
      wait_for_download_complete exists_at p timeout = ⟨p, timeout, true⟩ := by
  intro exists_at p timeout hs h
  rw [wait_for_download_complete, if_neg (by simp [hs])]
  have := waitLoop_timeout exists_at p (stripMarker p) timeout 0
    (fun j hj => by simpa using h j hj)
  simpa using this

/-- C8 (witness): external cancellation — the marker disappears at once
and the final file never appears — still times out after 60 polls with
the warning, never looping forever. -/
theorem resolver_times_out_witness :
    wait_for_download_complete (fun _ _ => false) "report.pdf.download" 60
      = ⟨"report.pdf.download", 60, true⟩ :=
  resolver_times_out _ _ 60 (by decide) (by decide)

/-- C9: when the final move fails, `process_event` still returns normally
(`Except.ok`, so the watcher process does not crash), logs the failure
warning, and moves nothing (`movedTo = none`): the event is dropped and
the file is left in place. -/
theorem move_failure_caught :
    ∀ (home : String) (exists_at : Nat → String → Bool) (url e p : String),
      exists_at 0 p = true →
      process_event home exists_at url (MoveOutcome.failure e) p =
        Except.ok
          ⟨["New or updated file detected: " ++ pathName p,
            "Could not rename "
              ++ pathName (wait_for_download_complete exists_at p 60).result
              ++ ": " ++ e],
           none⟩ := by
  intro home exists_at url e p h
  rw [process_event, if_neg (by simp [h])]

/-- C9 (witness): a permission-denied move of `photo.jpg` is caught, the
warning is logged, and nothing is moved. -/
theorem move_failure_caught_witness :
    process_event "/Users/u" (fun _ _ => true) "https://x"
        (MoveOutcome.failure "denied") "/Users/u/Downloads/photo.jpg" =
      Except.ok
        ⟨["New or updated file detected: "
            ++ pathName "/Users/u/Downloads/photo.jpg",
          "Could not rename "
            ++ pathName (wait_for_download_complete (fun _ _ => true)
                "/Users/u/Downloads/photo.jpg" 60).result
            ++ ": " ++ "denied"],
         none⟩ :=
  move_failure_caught "/Users/u" _ "https://x" "denied" _ rfl

/-- C10: the Naming Policy returns a non-empty string on every input, so
the base name of every destination filename derived from a context string
is never empty. -/
theorem sanitize_never_empty : ∀ s : String, sanitize_filename s ≠ "" :=
  fun s => sanitize_ne_empty s
